import Mathlib

/-!
Shallow embedding of the Enigma voice-assistant core
(`src/convex/voiceAssistant.ts`): sentiment scoring, intent
classification, response generation with its fallback ladder, and the
conversation-persistence mutation, together with theorems checking the
specification's claims about them.

Remote HTTP calls (the language-model providers) are abstracted as
oracle outcomes (`RemoteOutcome`); the document store and the
authentication provider are passed explicitly as values.  Numbers that
are IEEE doubles in the source are modelled as rationals: every
constant involved is an exact decimal fraction and the claims only
concern comparisons between such values.
-/

/-- Binary maximum on rationals (JavaScript `Math.max`), written with an
explicit comparison so that it evaluates by kernel reduction. -/
def qmax (a b : ℚ) : ℚ := if a ≤ b then b else a

/-- Binary minimum on rationals (JavaScript `Math.min`). -/
def qmin (a b : ℚ) : ℚ := if a ≤ b then a else b

theorem qmax_eq (a b : ℚ) : qmax a b = max a b := (max_def a b).symm

theorem qmin_eq (a b : ℚ) : qmin a b = min a b := (min_def a b).symm

/-- ASCII lower-casing of one character, the behaviour of JavaScript
`toLowerCase` on the ASCII range used by the rule tables. -/
def lowerChar (c : Char) : Char :=
  if 65 ≤ c.toNat ∧ c.toNat ≤ 90 then Char.ofNat (c.toNat + 32) else c

/-- Lower-casing of a string (`text.toLowerCase()` in the source). -/
def jsToLower (s : String) : String :=
  ⟨s.data.map lowerChar⟩

/-- Check that `pat` is a leading segment of `l`. -/
def charsPre : List Char → List Char → Bool
  | [], _ => true
  | _ :: _, [] => false
  | a :: as, b :: bs => a == b && charsPre as bs

/-- Check that `pat` occurs contiguously somewhere inside `l`. -/
def charsIn (pat : List Char) : List Char → Bool
  | [] => charsPre pat []
  | b :: bs => charsPre pat (b :: bs) || charsIn pat bs

/-- JavaScript `s.includes(pat)`: substring containment. -/
def includes (s pat : String) : Bool :=
  charsIn pat.data s.data

/-- The six fixed emotion labels of the sentiment model, in the key
order of the `emotionScores` object literal of the source. -/
inductive Emotion where
  | happy | sad | angry | fear | surprise | neutral
deriving DecidableEq

/-- String form of an emotion label, as returned by the source. -/
def emotionName : Emotion → String
  | .happy => "happy"
  | .sad => "sad"
  | .angry => "angry"
  | .fear => "fear"
  | .surprise => "surprise"
  | .neutral => "neutral"

/-- Position of an emotion in the fixed iteration order. -/
def emotionIdx : Emotion → Nat
  | .happy => 0
  | .sad => 1
  | .angry => 2
  | .fear => 3
  | .surprise => 4
  | .neutral => 5

/-- The fixed iteration order over emotions
(`Object.entries(emotionScores)` order). -/
def emotionList : List Emotion :=
  [.happy, .sad, .angry, .fear, .surprise, .neutral]

/-- One `(word, multiplier)` intensity modifier of a sentiment model. -/
structure IntensityModifier where
  word : String
  multiplier : ℚ
deriving DecidableEq

/-- A sentiment model: one keyword list per emotion label plus the
intensity modifiers (the `sentimentModels` row of the source schema). -/
structure SentimentModel where
  happyKw : List String
  sadKw : List String
  angryKw : List String
  fearKw : List String
  surpriseKw : List String
  neutralKw : List String
  intensityModifiers : List IntensityModifier
deriving DecidableEq

/-- Keyword list of a given emotion label. -/
def keywordsOf (m : SentimentModel) : Emotion → List String
  | .happy => m.happyKw
  | .sad => m.sadKw
  | .angry => m.angryKw
  | .fear => m.fearKw
  | .surprise => m.surpriseKw
  | .neutral => m.neutralKw

/-- The seeded "default" sentiment model (`initializeDefaults`,
`src/convex/voiceAssistant.ts` lines 104-122). -/
def defaultModel : SentimentModel where
  happyKw := ["happy", "joy", "excited", "great", "awesome", "wonderful",
    "fantastic", "amazing", "love", "perfect"]
  sadKw := ["sad", "depressed", "down", "unhappy", "miserable", "terrible",
    "awful", "disappointed", "hurt", "cry"]
  angryKw := ["angry", "mad", "furious", "annoyed", "irritated",
    "frustrated", "hate", "disgusted", "outraged"]
  fearKw := ["scared", "afraid", "terrified", "worried", "anxious",
    "nervous", "panic", "frightened"]
  surpriseKw := ["surprised", "shocked", "amazed", "astonished", "wow",
    "incredible", "unbelievable"]
  neutralKw := ["okay", "fine", "normal", "regular", "standard", "typical",
    "usual"]
  intensityModifiers :=
    [⟨"very", 3/2⟩, ⟨"extremely", 2⟩, ⟨"really", 13/10⟩,
     ⟨"quite", 6/5⟩, ⟨"somewhat", 4/5⟩, ⟨"slightly", 3/5⟩]

/-- Intensity multiplier of `analyzeSentiment` (source lines 148-155):
start at 1.0 and take the maximum with every modifier whose word occurs
in the (already lower-cased) text. -/
def intensityOf (m : SentimentModel) (t : String) : ℚ :=
  m.intensityModifiers.foldl
    (fun acc mo => if includes t mo.word then qmax acc mo.multiplier else acc) 1

/-- Number of keywords of the list occurring as substrings of the text
(sentiment keywords are not lower-cased by the source). -/
def matchCountKw (t : String) (kws : List String) : Nat :=
  (kws.filter (fun k => includes t k)).length

/-- Raw score of one emotion: the intensity multiplier added once per
matching keyword (source lines 157-166). -/
def rawScores (m : SentimentModel) (t : String) (e : Emotion) : ℚ :=
  intensityOf m t * (matchCountKw t (keywordsOf m e) : ℚ)

/-- The global match counter of `analyzeSentiment`. -/
def totalMatches (m : SentimentModel) (t : String) : Nat :=
  (emotionList.map (fun e => matchCountKw t (keywordsOf m e))).sum

/-- Normalisation step (source lines 168-175): divide every score by
the total match count when it is positive, otherwise set the neutral
score to 1.0 and keep the other (necessarily zero) raw scores. -/
def normScores (m : SentimentModel) (t : String) : Emotion → ℚ :=
  if 0 < totalMatches m t then
    fun e => rawScores m t e / (totalMatches m t : ℚ)
  else
    fun e => if e = Emotion.neutral then 1 else rawScores m t e

/-- Dominant emotion (source lines 177-180): the JavaScript `reduce`
over the entries, keeping the accumulator only when its score is
strictly greater than the next entry's score. -/
def dominantEmotion (s : Emotion → ℚ) : Emotion :=
  [Emotion.sad, Emotion.angry, Emotion.fear, Emotion.surprise,
    Emotion.neutral].foldl (fun a b => if s a > s b then a else b)
    Emotion.happy

/-- Result record of the Sentiment Scorer. -/
structure SentimentReading where
  emotion : String
  confidence : ℚ
  valence : ℚ
  arousal : ℚ
deriving DecidableEq

/-- The Sentiment Scorer `analyzeSentiment` (source lines 127-195):
lower-case the text, compute normalised emotion scores, pick the
dominant emotion, and derive clamped confidence, valence and arousal. -/
def analyzeSentiment (m : SentimentModel) (text : String) : SentimentReading :=
  let t := jsToLower text
  let s := normScores m t
  let dom := dominantEmotion s
  let valence := (s .happy + s .surprise) - (s .sad + s .angry + s .fear)
  let arousal := s .angry + s .fear + s .surprise + s .happy * (1/2)
  { emotion := emotionName dom
    confidence := qmin (s dom) 1
    valence := qmax (-1) (qmin 1 valence)
    arousal := qmax 0 (qmin 1 arousal) }

/-- One entity extractor of an intent rule: an entity type name plus its
trigger patterns. -/
structure EntityDef where
  type : String
  patterns : List String
deriving DecidableEq

/-- An intent rule (the `intents` row of the source schema). -/
structure Intent where
  category : String
  patterns : List String
  responses : List String
  entities : List EntityDef
  requiredConfidence : ℚ
deriving DecidableEq

/-- One extracted entity of an intent reading. -/
structure EntityMatch where
  type : String
  value : String
  confidence : ℚ
deriving DecidableEq

/-- Result record of the Intent Classifier. -/
structure IntentResult where
  category : String
  confidence : ℚ
  entities : List EntityMatch
deriving DecidableEq

/-- The six seeded default intent rules (`initializeDefaults`, source
lines 15-97). -/
def defaultIntents : List Intent :=
  [{ category := "greeting"
     patterns := ["hello", "hi", "hey", "good morning", "good afternoon",
       "good evening"]
     responses := ["Hello! How can I help you today?",
       "Hi there! What can I do for you?",
       "Hey! I\x27m here to assist you."]
     entities := []
     requiredConfidence := 7/10 },
   { category := "weather"
     patterns := ["weather", "temperature", "forecast", "rain", "sunny",
       "cloudy"]
     responses := ["I\x27d be happy to help with weather information. What location are you interested in?",
       "Let me check the weather for you. Which city?"]
     entities := [⟨"location", ["in", "at", "for", "city", "town"]⟩]
     requiredConfidence := 4/5 },
   { category := "music"
     patterns := ["play music", "song", "artist", "album", "playlist",
       "tune"]
     responses := ["I\x27d love to help with music! What would you like to listen to?",
       "Great choice! What genre or artist are you in the mood for?"]
     entities := [⟨"genre", ["rock", "pop", "jazz", "classical", "hip hop",
         "electronic"]⟩,
       ⟨"artist", ["by", "from", "artist"]⟩]
     requiredConfidence := 3/4 },
   { category := "reminder"
     patterns := ["remind me", "reminder", "don\x27t forget", "schedule",
       "appointment"]
     responses := ["I\x27ll help you set a reminder. What should I remind you about?",
       "Sure! When would you like to be reminded?"]
     entities := [⟨"time", ["at", "in", "tomorrow", "today", "next week",
         "minutes", "hours"]⟩]
     requiredConfidence := 4/5 },
   { category := "emotion_support"
     patterns := ["sad", "depressed", "anxious", "worried", "stressed",
       "upset"]
     responses := ["I\x27m sorry you\x27re feeling this way. Would you like to talk about it?",
       "I understand this might be difficult. I\x27m here to listen.",
       "It\x27s okay to feel this way sometimes. How can I support you?"]
     entities := []
     requiredConfidence := 3/5 },
   { category := "question"
     patterns := ["what", "how", "when", "where", "why", "who", "tell me",
       "explain", "define"]
     responses := ["Let me find that information for you.",
       "I\x27ll look that up right away."]
     entities := []
     requiredConfidence := 1/2 }]

/-- Number of trigger patterns of the rule occurring (lower-cased) as
substrings of the text (source lines 214-220, where `score` and
`matches` are incremented together and therefore always equal). -/
def matchCount (t : String) (pats : List String) : Nat :=
  (pats.filter (fun p => includes t (jsToLower p))).length

/-- Confidence of a rule on a text: matched patterns over the rule's
total pattern count (source line 223). -/
def ruleConfidence (t : String) (r : Intent) : ℚ :=
  (matchCount t r.patterns : ℚ) / (r.patterns.length : ℚ)

/-- Entity extraction for a rule that became the running best (source
lines 227-238): one entity per matching trigger pattern, whose value is
the pattern text itself and whose confidence is the fixed 0.8. -/
def extractEntities (t : String) (ents : List EntityDef) : List EntityMatch :=
  (ents.map (fun e =>
    (e.patterns.filter (fun p => includes t (jsToLower p))).map
      (fun p => { type := e.type, value := p, confidence := (4/5 : ℚ) }))).flatten

/-- The intent reading a rule produces when it becomes the best match. -/
def rulePayload (t : String) (r : Intent) : IntentResult :=
  { category := r.category
    confidence := ruleConfidence t r
    entities := extractEntities t r.entities }

/-- A rule qualifies on a text when at least one pattern matches and its
confidence reaches its own required-confidence threshold. -/
def QualifiesRule (t : String) (r : Intent) : Prop :=
  0 < matchCount t r.patterns ∧ r.requiredConfidence ≤ ruleConfidence t r

instance (t : String) (r : Intent) : Decidable (QualifiesRule t r) :=
  inferInstanceAs (Decidable (And _ _))

/-- One iteration of the `detectIntent` loop (source lines 210-247): a
rule with at least one match replaces the running best match exactly
when its confidence reaches the rule's own threshold and strictly
exceeds the running best confidence. -/
def stepIntent (t : String) (best : IntentResult) (r : Intent) : IntentResult :=
  let mcount := matchCount t r.patterns
  if 0 < mcount then
    let confidence : ℚ := (mcount : ℚ) / (r.patterns.length : ℚ)
    if r.requiredConfidence ≤ confidence ∧ best.confidence < confidence then
      { category := r.category
        confidence := confidence
        entities := extractEntities t r.entities }
    else best
  else best

/-- The initial best match of `detectIntent` (source lines 204-208). -/
def unknownIntent : IntentResult :=
  { category := "unknown", confidence := 0, entities := [] }

/-- The Intent Classifier `detectIntent` (source lines 198-251). -/
def detectIntent (intents : List Intent) (text : String) : IntentResult :=
  intents.foldl (stepIntent (jsToLower text)) unknownIntent

/-- Outcome of one remote language-model call: a successful textual
reply, or any failure (missing key, non-2xx status, network error). -/
inductive RemoteOutcome where
  | ok (reply : String)
  | fail
deriving DecidableEq

/-- The deterministic fallback table of `generateResponse` (source
lines 443-456): keyed by intent category, with the greeting branch
split on the current emotion and the default branch split on the
valence threshold -0.3. -/
def fallbackResponse (it : IntentResult) (st : SentimentReading) : String :=
  if it.category = "greeting" then
    if st.emotion = "sad" then
      "Hello there. I can sense you might not be feeling your best today. I\x27m here if you need someone to talk to."
    else
      "Hello! It\x27s great to hear from you. How can I help you today?"
  else if it.category = "emotion_support" then
    "I understand you\x27re going through a difficult time. While I\x27m just an AI, I want you to know that your feelings are valid. Is there anything specific I can help you with?"
  else if it.category = "question" then
    "I\x27d love to help answer your question, but I\x27m having trouble accessing my knowledge base right now. Could you try asking again in a moment?"
  else if st.valence < -(3/10) then
    "I\x27m here to help, and I can sense this might be challenging for you. Let me know what you need."
  else
    "I\x27m here to help! What can I do for you?"

/-- The general reply path of `generateResponse` (source lines
390-457): try the primary provider, then the secondary provider, and
when both fail or are unconfigured fall back to the deterministic
table. -/
def generalReply (st : SentimentReading) (it : IntentResult)
    (primaryReply secondaryReply : RemoteOutcome) : String :=
  match primaryReply with
  | .ok r => r
  | .fail =>
    match secondaryReply with
    | .ok r => r
    | .fail => fallbackResponse it st

/-- The question-mode test of `generateResponse` (source lines
336-342): the intent category is "question" or the lower-cased message
contains one of the six fixed question words. -/
def questionMode (um : String) (it : IntentResult) : Bool :=
  it.category = "question" || includes (jsToLower um) "what" ||
    includes (jsToLower um) "how" || includes (jsToLower um) "when" ||
    includes (jsToLower um) "where" || includes (jsToLower um) "why" ||
    includes (jsToLower um) "who"

/-- The response-generation stage `generateResponse` (source lines
311-459), with each remote call abstracted as a `RemoteOutcome`: in
question mode a successful open-domain answer is returned directly and
a failed one falls through to the general reply path. -/
def generateResponse (um : String) (st : SentimentReading) (it : IntentResult)
    (openAnswer primaryReply secondaryReply : RemoteOutcome) : String :=
  match questionMode um it, openAnswer with
  | true, .ok answer => answer
  | true, .fail => generalReply st it primaryReply secondaryReply
  | false, _ => generalReply st it primaryReply secondaryReply

/-- Message author tag. -/
inductive MsgType where
  | user | assistant
deriving DecidableEq

/-- Whether a message author tag is the user tag. -/
def MsgType.isUser : MsgType → Bool
  | .user => true
  | .assistant => false

/-- One persisted message of a conversation (source schema). -/
structure Message where
  id : String
  type : MsgType
  content : String
  timestamp : Nat
  sentiment : Option SentimentReading
  intent : Option IntentResult
deriving DecidableEq

/-- The per-conversation preferences record. -/
structure Preferences where
  responseStyle : String
  verbosity : String
deriving DecidableEq

/-- The mutable context of a conversation. -/
structure ConvContext where
  userMood : String
  conversationTopic : Option String
  lastIntent : Option String
  preferences : Preferences
deriving DecidableEq

/-- One conversation document, keyed by user and session. -/
structure Conversation where
  userId : String
  sessionId : String
  messages : List Message
  context : ConvContext
deriving DecidableEq

/-- The arguments of the `saveMessage` mutation that describe one
completed turn. -/
structure SaveArgs where
  userMessage : String
  assistantResponse : String
  sentiment : SentimentReading
  intent : IntentResult
deriving DecidableEq

/-- The user message record built by `saveMessage` (source lines
626-633). -/
def mkUserMessage (a : SaveArgs) (ts : Nat) : Message :=
  { id := "user_" ++ toString ts
    type := .user
    content := a.userMessage
    timestamp := ts
    sentiment := some a.sentiment
    intent := some a.intent }

/-- The assistant message record built by `saveMessage` (source lines
635-640), with timestamp one above the user message's. -/
def mkAssistantMessage (a : SaveArgs) (ts : Nat) : Message :=
  { id := "assistant_" ++ toString (ts + 1)
    type := .assistant
    content := a.assistantResponse
    timestamp := ts + 1
    sentiment := none
    intent := none }

/-- The `saveMessage` mutation (source lines 595-674) as a transition
on the conversation document for the turn's (user, session) pair:
append the user/assistant pair and merge the context, or create the
document with default preferences. -/
def saveMessage (conv : Option Conversation) (uid sid : String)
    (a : SaveArgs) (now : Nat) : Conversation :=
  match conv with
  | some c =>
    { c with
      messages := c.messages ++ [mkUserMessage a now, mkAssistantMessage a now]
      context :=
        { c.context with
          userMood := a.sentiment.emotion
          lastIntent := some a.intent.category
          conversationTopic :=
            if a.intent.category ≠ "unknown" then some a.intent.category
            else c.context.conversationTopic } }
  | none =>
    { userId := uid
      sessionId := sid
      messages := [mkUserMessage a now, mkAssistantMessage a now]
      context :=
        { userMood := a.sentiment.emotion
          conversationTopic :=
            if a.intent.category ≠ "unknown" then some a.intent.category
            else none
          lastIntent := some a.intent.category
          preferences := { responseStyle := "empathetic", verbosity := "detailed" } } }

/-- Conversation states reachable for one (user, session) pair through
the persistence mutation: no document yet, or the result of one more
`saveMessage` call on a reachable state. -/
inductive Reachable : Option Conversation → Prop where
  | init : Reachable none
  | step (c : Option Conversation) (uid sid : String) (a : SaveArgs) (now : Nat) :
      Reachable c → Reachable (some (saveMessage c uid sid a now))

/-- A message sequence consisting of complete (user, assistant) pairs. -/
def pairedB : List Message → Bool
  | [] => true
  | [_] => false
  | u :: b :: rest => u.type.isUser && !b.type.isUser && pairedB rest

/-- Positional form of the claimed invariant: every user message is
immediately followed by exactly one assistant message, meaning that its
successor exists and is an assistant message, and the message after
that, when present, is again a user message. -/
def everyUserFollowedB : List Message → Bool
  | [] => true
  | [m] => !m.type.isUser
  | m :: b :: rest =>
    (!m.type.isUser ||
      (!b.type.isUser &&
        (match rest with
         | [] => true
         | c :: _ => c.type.isUser))) && everyUserFollowedB (b :: rest)

/-- The `getConversationHistory` query (source lines 677-694): null
when no user is authenticated, otherwise the stored conversation of the
caller and session, when one exists. -/
def getConversationHistory (auth : Option String) (store : List Conversation)
    (sid : String) : Option (Option Conversation) :=
  match auth with
  | none => none
  | some uid =>
    some (store.find? (fun c => c.userId = uid ∧ c.sessionId = sid))

/-- The summary record of `getPerformanceMetrics`. -/
structure Metrics where
  totalConversations : Nat
  totalMessages : Nat
  avgSentimentAccuracy : ℚ
  avgIntentAccuracy : ℚ
  avgResponseLatency : ℚ
deriving DecidableEq

/-- The `getPerformanceMetrics` query (source lines 697-731): null when
no user is authenticated, otherwise confidence averages over the user
messages that carry both readings, with the fixed placeholder latency. -/
def getPerformanceMetrics (auth : Option String) (store : List Conversation) :
    Option Metrics :=
  match auth with
  | none => none
  | some uid =>
    let convs := store.filter (fun c => c.userId = uid)
    let qualifying :=
      (convs.map (fun c => c.messages.filter
        (fun msg => msg.type.isUser && msg.sentiment.isSome && msg.intent.isSome))).flatten
    let total := qualifying.length
    let sSum := (qualifying.map (fun msg =>
      match msg.sentiment with | some s => s.confidence | none => 0)).sum
    let iSum := (qualifying.map (fun msg =>
      match msg.intent with | some i => i.confidence | none => 0)).sum
    some
      { totalConversations := convs.length
        totalMessages := total
        avgSentimentAccuracy := if 0 < total then sSum / (total : ℚ) * 100 else 0
        avgIntentAccuracy := if 0 < total then iSum / (total : ℚ) * 100 else 0
        avgResponseLatency := 1200 }

/-- The `processVoiceInput` action (source lines 462-563), with remote
calls abstracted as oracle outcomes and the store row for the session
passed explicitly: it throws on a missing identity or a missing
sentiment model, and otherwise analyses, responds and persists. -/
def processVoiceInput (auth : Option String) (model : Option SentimentModel)
    (intents : List Intent) (conv : Option Conversation)
    (openAnswer primaryReply secondaryReply : RemoteOutcome)
    (text sid : String) (now : Nat) :
    Except String (String × SentimentReading × IntentResult × Conversation) :=
  match auth with
  | none => Except.error "User not authenticated"
  | some uid =>
    match model with
    | none => Except.error "Sentiment model not found"
    | some m =>
      let sentiment := analyzeSentiment m text
      let intent := detectIntent intents text
      let response :=
        generateResponse text sentiment intent openAnswer primaryReply secondaryReply
      let conv₂ := saveMessage conv uid sid
        { userMessage := text, assistantResponse := response,
          sentiment := sentiment, intent := intent } now
      Except.ok (response, sentiment, intent, conv₂)

/-! Helper lemmas about the folds used by the scorer and classifier. -/

theorem le_foldl_qmax : ∀ (l : List ℚ) (a : ℚ), a ≤ l.foldl qmax a
  | [], _ => le_refl _
  | x :: xs, a =>
    le_trans (by rw [qmax_eq]; exact le_max_left a x) (le_foldl_qmax xs (qmax a x))

theorem foldl_ite_qmax (p : IntensityModifier → Bool) :
    ∀ (l : List IntensityModifier) (acc : ℚ),
      l.foldl (fun a mo => if p mo then qmax a mo.multiplier else a) acc
        = ((l.filter p).map (fun mo => mo.multiplier)).foldl qmax acc := by
  intro l
  induction l with
  | nil => intro acc; rfl
  | cons mo rest ih =>
    intro acc
    by_cases hp : p mo <;> simp [List.foldl_cons, List.filter_cons, hp, ih]

/-- The result of the strict-comparison fold never has a smaller score
than the start value or any list element. -/
theorem pickMax_le (s : Emotion → ℚ) :
    ∀ (l : List Emotion) (a : Emotion),
      s a ≤ s (l.foldl (fun x y => if s x > s y then x else y) a) ∧
      ∀ e ∈ l, s e ≤ s (l.foldl (fun x y => if s x > s y then x else y) a) := by
  intro l
  induction l with
  | nil => intro a; exact ⟨le_refl _, by simp⟩
  | cons x rest ih =>
    intro a
    by_cases h : s a > s x
    · have := ih a
      constructor
      · simpa [List.foldl_cons, if_pos h] using this.1
      · intro e he
        rcases List.mem_cons.1 he with rfl | he
        · calc s e ≤ s a := le_of_lt h
            _ ≤ _ := by simpa [List.foldl_cons, if_pos h] using this.1
        · simpa [List.foldl_cons, if_pos h] using this.2 e he
    · have hax : s a ≤ s x := le_of_not_lt h
      have := ih x
      constructor
      · calc s a ≤ s x := hax
          _ ≤ _ := by simpa [List.foldl_cons, if_neg h] using this.1
      · intro e he
        rcases List.mem_cons.1 he with rfl | he
        · simpa [List.foldl_cons, if_neg h] using this.1
        · simpa [List.foldl_cons, if_neg h] using this.2 e he

/-- Structure of the strict-comparison fold result: either the start
value survived with every list element strictly below it, or the result
occurs in the list and everything after that occurrence is strictly
below it (so on exact ties the later element wins). -/
theorem pickMax_split (s : Emotion → ℚ) :
    ∀ (l : List Emotion) (a : Emotion),
      (l.foldl (fun x y => if s x > s y then x else y) a = a ∧
        ∀ e ∈ l, s e < s a) ∨
      ∃ l1 l2, l = l1 ++ (l.foldl (fun x y => if s x > s y then x else y) a) :: l2 ∧
        ∀ e ∈ l2, s e < s (l.foldl (fun x y => if s x > s y then x else y) a) := by
  intro l
  induction l with
  | nil => intro a; exact Or.inl ⟨rfl, by simp⟩
  | cons x rest ih =>
    intro a
    by_cases h : s a > s x
    · rcases ih a with ⟨heq, hlt⟩ | ⟨l1, l2, heq, hlt⟩
      · refine Or.inl ⟨?_, ?_⟩
        · simpa [List.foldl_cons, if_pos h] using heq
        · intro e he
          rcases List.mem_cons.1 he with rfl | he
          · exact h
          · exact hlt e he
      · refine Or.inr ⟨x :: l1, l2, ?_, ?_⟩
        · simpa [List.foldl_cons, if_pos h] using congrArg (x :: ·) heq
        · simpa [List.foldl_cons, if_pos h] using hlt
    · rcases ih x with ⟨heq, hlt⟩ | ⟨l1, l2, heq, hlt⟩
      · refine Or.inr ⟨[], rest, ?_, ?_⟩
        · simpa [List.foldl_cons, if_neg h] using congrArg (· :: rest) heq.symm
        · intro e he
          have h2 : s e < s x := hlt e he
          simpa [List.foldl_cons, if_neg h, heq] using h2
      · refine Or.inr ⟨x :: l1, l2, ?_, ?_⟩
        · simpa [List.foldl_cons, if_neg h] using congrArg (x :: ·) heq
        · simpa [List.foldl_cons, if_neg h] using hlt

/-- The dominant emotion attains the maximal score, and every emotion
strictly later in the fixed iteration order than the dominant one has a
strictly smaller score (the reduce keeps the accumulator only on a
strict win, so ties move to the later entry). -/
theorem dominant_spec (s : Emotion → ℚ) :
    (∀ e, s e ≤ s (dominantEmotion s)) ∧
    (∀ e, emotionIdx (dominantEmotion s) < emotionIdx e →
      s e < s (dominantEmotion s)) := by
  have hle := pickMax_le s
    [Emotion.sad, Emotion.angry, Emotion.fear, Emotion.surprise, Emotion.neutral]
    Emotion.happy
  have hsp := pickMax_split s
    [Emotion.sad, Emotion.angry, Emotion.fear, Emotion.surprise, Emotion.neutral]
    Emotion.happy
  rw [show ([Emotion.sad, Emotion.angry, Emotion.fear, Emotion.surprise,
      Emotion.neutral].foldl (fun x y => if s x > s y then x else y)
      Emotion.happy) = dominantEmotion s from rfl] at hle hsp
  constructor
  · intro e
    rcases e with _ | _ | _ | _ | _ | _
    · exact hle.1
    all_goals exact hle.2 _ (by simp)
  · intro e hidx
    rcases hsp with ⟨heq, hlt⟩ | ⟨l1, l2, heq, hlt⟩
    · rw [heq] at hidx ⊢
      rcases e with _ | _ | _ | _ | _ | _
      · simp [emotionIdx] at hidx
      all_goals exact hlt _ (by simp)
    · have hmem : e ∈ l2 := by
        rcases l1 with _ | ⟨e1, l1⟩
        · simp only [List.nil_append, List.cons.injEq] at heq
          rw [← heq.1] at hidx
          rcases e with _ | _ | _ | _ | _ | _ <;>
            simp [emotionIdx, ← heq.2] at hidx ⊢
        · rcases l1 with _ | ⟨e2, l1⟩
          · simp only [List.cons_append, List.nil_append, List.cons.injEq] at heq
            rw [← heq.2.1] at hidx
            rcases e with _ | _ | _ | _ | _ | _ <;>
              simp [emotionIdx, ← heq.2.2] at hidx ⊢
          · rcases l1 with _ | ⟨e3, l1⟩
            · simp only [List.cons_append, List.nil_append, List.cons.injEq] at heq
              rw [← heq.2.2.1] at hidx
              rcases e with _ | _ | _ | _ | _ | _ <;>
                simp [emotionIdx, ← heq.2.2.2] at hidx ⊢
            · rcases l1 with _ | ⟨e4, l1⟩
              · simp only [List.cons_append, List.nil_append, List.cons.injEq] at heq
                rw [← heq.2.2.2.1] at hidx
                rcases e with _ | _ | _ | _ | _ | _ <;>
                  simp [emotionIdx, ← heq.2.2.2.2] at hidx ⊢
              · rcases l1 with _ | ⟨e5, l1⟩
                · simp only [List.cons_append, List.nil_append, List.cons.injEq] at heq
                  rw [← heq.2.2.2.2.1] at hidx
                  rcases e with _ | _ | _ | _ | _ | _ <;>
                    simp [emotionIdx, ← heq.2.2.2.2.2] at hidx ⊢
                · exfalso
                  have hlen := congrArg List.length heq
                  simp only [List.length_cons, List.length_append,
                    List.length_nil] at hlen
                  omega
      exact hlt e hmem

/-- One classifier step in terms of qualification: the running best is
replaced exactly when the rule qualifies and strictly beats it. -/
theorem stepIntent_eq (t : String) (best : IntentResult) (r : Intent) :
    stepIntent t best r
      = if QualifiesRule t r ∧ best.confidence < ruleConfidence t r
        then rulePayload t r else best := by
  unfold stepIntent QualifiesRule ruleConfidence rulePayload
  by_cases h1 : 0 < matchCount t r.patterns
  · simp only [h1, if_true, true_and, and_assoc]
    rfl
  · simp [h1]

/-- A qualifying rule always has strictly positive confidence. -/
theorem conf_pos (t : String) (r : Intent) (h : QualifiesRule t r) :
    0 < ruleConfidence t r := by
  have hlen : 0 < r.patterns.length :=
    lt_of_lt_of_le h.1 (List.length_filter_le _ _)
  unfold ruleConfidence
  exact div_pos (by exact_mod_cast h.1) (by exact_mod_cast hlen)

/-- The classifier loop leaves the best match unchanged when no later
rule qualifies with a strictly larger confidence. -/
theorem foldl_keep (t : String) :
    ∀ (l : List Intent) (best : IntentResult),
      (∀ r ∈ l, QualifiesRule t r → ruleConfidence t r ≤ best.confidence) →
      l.foldl (stepIntent t) best = best := by
  intro l
  induction l with
  | nil => intro best _; rfl
  | cons r rest ih =>
    intro best h
    have hstep : stepIntent t best r = best := by
      rw [stepIntent_eq]
      apply if_neg
      rintro ⟨hq, hlt⟩
      exact absurd hlt (not_lt.2 (h r (List.mem_cons_self r rest) hq))
    rw [List.foldl_cons, hstep]
    exact ih best (fun r' hr' => h r' (List.mem_cons_of_mem r hr'))

/-- The running best confidence stays below a bound that every
qualifying rule of the remaining list stays strictly below. -/
theorem foldl_bound (t : String) :
    ∀ (l : List Intent) (best : IntentResult) (c : ℚ),
      best.confidence < c →
      (∀ r ∈ l, QualifiesRule t r → ruleConfidence t r < c) →
      (l.foldl (stepIntent t) best).confidence < c := by
  intro l
  induction l with
  | nil => intro best c hb _; exact hb
  | cons r rest ih =>
    intro best c hb h
    rw [List.foldl_cons, stepIntent_eq]
    by_cases hcond : QualifiesRule t r ∧ best.confidence < ruleConfidence t r
    · rw [if_pos hcond]
      exact ih _ c (h r (List.mem_cons_self r rest) hcond.1)
        (fun r' hr' => h r' (List.mem_cons_of_mem r hr'))
    · rw [if_neg hcond]
      exact ih best c hb (fun r' hr' => h r' (List.mem_cons_of_mem r hr'))

/-- The classifier loop either never replaces the running best, or its
result is the payload of some qualifying rule of the list. -/
theorem foldl_cases (t : String) :
    ∀ (l : List Intent) (best : IntentResult),
      l.foldl (stepIntent t) best = best ∨
      ∃ r ∈ l, QualifiesRule t r ∧
        l.foldl (stepIntent t) best = rulePayload t r := by
  intro l
  induction l with
  | nil => intro best; exact Or.inl rfl
  | cons r rest ih =>
    intro best
    rw [List.foldl_cons, stepIntent_eq]
    by_cases hcond : QualifiesRule t r ∧ best.confidence < ruleConfidence t r
    · rw [if_pos hcond]
      rcases ih (rulePayload t r) with heq | ⟨r', hr', hq', heq'⟩
      · exact Or.inr ⟨r, List.mem_cons_self r rest, hcond.1, heq⟩
      · exact Or.inr ⟨r', List.mem_cons_of_mem r hr', hq', heq'⟩
    · rw [if_neg hcond]
      rcases ih best with heq | ⟨r', hr', hq', heq'⟩
      · exact Or.inl heq
      · exact Or.inr ⟨r', List.mem_cons_of_mem r hr', hq', heq'⟩

/-- Induction on message lists two elements at a time. -/
theorem twoStepInd {P : List Message → Prop} (h0 : P []) (h1 : ∀ m, P [m])
    (h2 : ∀ x y l, P l → P (x :: y :: l)) : ∀ l, P l
  | [] => h0
  | [m] => h1 m
  | x :: y :: l => h2 x y l (twoStepInd h0 h1 h2 l)

/-- Appending one (user, assistant) pair preserves pairing. -/
theorem pairedB_append (u a : Message) (hu : u.type = MsgType.user)
    (ha : a.type = MsgType.assistant) :
    ∀ l, pairedB l = true → pairedB (l ++ [u, a]) = true := by
  refine twoStepInd ?_ ?_ ?_
  · intro _
    simp [pairedB, hu, ha, MsgType.isUser]
  · intro m hp
    simp [pairedB] at hp
  · intro x y l ih hp
    simp only [pairedB, Bool.and_eq_true] at hp
    simp only [List.cons_append, pairedB, Bool.and_eq_true]
    exact ⟨⟨hp.1.1, hp.1.2⟩, ih hp.2⟩

/-- A nonempty paired message list starts with a user message. -/
theorem pairedB_first (c : Message) (r : List Message)
    (h : pairedB (c :: r) = true) : c.type.isUser = true := by
  cases r with
  | nil => simp [pairedB] at h
  | cons d r' =>
    simp only [pairedB, Bool.and_eq_true] at h
    exact h.1.1

/-- Pairing implies the positional user-followed-by-assistant form. -/
theorem paired_userFollowed :
    ∀ l, pairedB l = true → everyUserFollowedB l = true := by
  refine twoStepInd ?_ ?_ ?_
  · intro _; rfl
  · intro m hp; simp [pairedB] at hp
  · intro x y l ih hp
    simp only [pairedB, Bool.and_eq_true] at hp
    obtain ⟨⟨hx, hy⟩, hpl⟩ := hp
    simp only [everyUserFollowedB, Bool.and_eq_true]
    constructor
    · cases l with
      | nil => simp [hy]
      | cons c l' =>
        have hc := pairedB_first c l' hpl
        simp [hy, hc]
    · cases l with
      | nil => simp [everyUserFollowedB, hy]
      | cons c l' =>
        simp only [everyUserFollowedB, Bool.and_eq_true]
        refine ⟨by simp [hy], ?_⟩
        have := ih hpl
        cases l' <;> simpa [everyUserFollowedB] using this

/-- Every reachable stored conversation has fully paired messages. -/
theorem reachable_paired :
    ∀ oc, Reachable oc → ∀ c, oc = some c → pairedB c.messages = true := by
  intro oc h
  induction h with
  | init => intro c hc; cases hc
  | step c0 uid sid a now hr ih =>
    intro c hc
    injection hc with hc
    subst hc
    cases c0 with
    | none =>
      simp [saveMessage, pairedB, mkUserMessage, mkAssistantMessage, MsgType.isUser]
    | some conv =>
      have hm : (saveMessage (some conv) uid sid a now).messages
          = conv.messages ++ [mkUserMessage a now, mkAssistantMessage a now] := rfl
      rw [hm]
      exact pairedB_append _ _ rfl rfl _ (ih conv rfl)

/-! The claim theorems. -/

/-- Claim C1: every call of the persistence mutation appends exactly
two messages to the conversation's sequence, a user message followed by
an assistant message whose timestamp is the user timestamp plus one;
consequently in every reachable conversation every user message is
immediately followed by exactly one assistant message. -/
theorem saveMessage_pair_invariant :
    (∀ (c : Option Conversation) (uid sid : String) (a : SaveArgs) (now : Nat),
      (saveMessage c uid sid a now).messages
        = (Option.map Conversation.messages c).getD []
            ++ [mkUserMessage a now, mkAssistantMessage a now]
      ∧ (mkUserMessage a now).type = MsgType.user
      ∧ (mkAssistantMessage a now).type = MsgType.assistant
      ∧ (mkAssistantMessage a now).timestamp = (mkUserMessage a now).timestamp + 1)
    ∧ (∀ conv : Conversation, Reachable (some conv) →
        everyUserFollowedB conv.messages = true) := by
  constructor
  · intro c uid sid a now
    refine ⟨?_, rfl, rfl, rfl⟩
    cases c <;> rfl
  · exact fun conv h => paired_userFollowed _ (reachable_paired _ h _ rfl)

/-- Witness for C1 at a concrete one-turn conversation. -/
theorem saveMessage_pair_invariant_witness :
    Reachable (some (saveMessage none "u" "s"
      ⟨"hi", "hello", ⟨"happy", 1, 0, 0⟩, ⟨"greeting", 1, []⟩⟩ 0)) ∧
    everyUserFollowedB (saveMessage none "u" "s"
      ⟨"hi", "hello", ⟨"happy", 1, 0, 0⟩, ⟨"greeting", 1, []⟩⟩ 0).messages = true :=
  ⟨Reachable.step none "u" "s" _ 0 Reachable.init,
   saveMessage_pair_invariant.2 _ (Reachable.step none "u" "s" _ 0 Reachable.init)⟩

/-- Claim C2: when no keyword of any emotion list occurs in the
lower-cased text (the global match counter is zero), the Sentiment
Scorer returns emotion "neutral" with confidence 1.0. -/
theorem analyzeSentiment_no_match_neutral (m : SentimentModel) (text : String)
    (h : totalMatches m (jsToLower text) = 0) :
    (analyzeSentiment m text).emotion = "neutral" ∧
    (analyzeSentiment m text).confidence = 1 := by
  have hns : normScores m (jsToLower text)
      = fun e => if e = Emotion.neutral then 1
                 else rawScores m (jsToLower text) e := by
    unfold normScores
    rw [if_neg (by omega)]
  have hcount : ∀ e, matchCountKw (jsToLower text) (keywordsOf m e) = 0 := by
    intro e
    have h2 := h
    simp only [totalMatches, emotionList, List.map_cons, List.map_nil,
      List.sum_cons, List.sum_nil, keywordsOf] at h2
    cases e <;> simp only [keywordsOf] <;> omega
  have hzero : ∀ e, e ≠ Emotion.neutral →
      normScores m (jsToLower text) e = 0 := by
    intro e he
    rw [hns]
    simp only [if_neg he]
    unfold rawScores
    rw [hcount e]
    simp
  have hone : normScores m (jsToLower text) Emotion.neutral = 1 := by
    rw [hns]; simp
  have hd := (dominant_spec (normScores m (jsToLower text))).1 Emotion.neutral
  rw [hone] at hd
  have hdom : dominantEmotion (normScores m (jsToLower text))
      = Emotion.neutral := by
    by_contra hne
    rw [hzero _ hne] at hd
    norm_num at hd
  constructor
  · show emotionName (dominantEmotion (normScores m (jsToLower text))) = "neutral"
    rw [hdom]
    rfl
  · show qmin (normScores m (jsToLower text)
      (dominantEmotion (normScores m (jsToLower text)))) 1 = 1
    rw [hdom, hone]
    simp [qmin]

/-- Witness for C2 at the keyword-free text "xyz". -/
theorem analyzeSentiment_no_match_neutral_witness :
    totalMatches defaultModel (jsToLower "xyz") = 0 ∧
    ((analyzeSentiment defaultModel "xyz").emotion = "neutral" ∧
     (analyzeSentiment defaultModel "xyz").confidence = 1) :=
  ⟨by decide, analyzeSentiment_no_match_neutral defaultModel "xyz" (by decide)⟩

/-- The normalisation, dominance and tie-break behaviour of the
Sentiment Scorer at one model and text: scores are divided by the total
match count, the returned emotion and clamped confidence come from the
dominant emotion, the dominant emotion attains the maximal normalised
score, and on an exact tie of normalised scores the dominant emotion is
the latest tied entry of the fixed iteration order. -/
def NormalizedDominant (m : SentimentModel) (text : String) : Prop :=
  (∀ e, normScores m (jsToLower text) e
      = rawScores m (jsToLower text) e / (totalMatches m (jsToLower text) : ℚ)) ∧
  (analyzeSentiment m text).emotion
      = emotionName (dominantEmotion (normScores m (jsToLower text))) ∧
  (analyzeSentiment m text).confidence
      = qmin (normScores m (jsToLower text)
          (dominantEmotion (normScores m (jsToLower text)))) 1 ∧
  (∀ e, normScores m (jsToLower text) e
      ≤ normScores m (jsToLower text)
          (dominantEmotion (normScores m (jsToLower text)))) ∧
  (∀ e, normScores m (jsToLower text) e
      = normScores m (jsToLower text)
          (dominantEmotion (normScores m (jsToLower text))) →
    emotionIdx e ≤ emotionIdx (dominantEmotion (normScores m (jsToLower text))))

/-- Claim C3 counterexample: on the text "happy sad" the match counter
is non-zero, happy and sad tie for the maximal normalised score, happy
is encountered first, yet the scorer returns "sad", so the
first-encountered emotion does not win exact ties. -/
theorem sentiment_tie_counterexample :
    0 < totalMatches defaultModel (jsToLower "happy sad") ∧
    normScores defaultModel (jsToLower "happy sad") Emotion.happy
      = normScores defaultModel (jsToLower "happy sad") Emotion.sad ∧
    (∀ e, normScores defaultModel (jsToLower "happy sad") e
      ≤ normScores defaultModel (jsToLower "happy sad") Emotion.happy) ∧
    (analyzeSentiment defaultModel "happy sad").emotion = "sad" := by
  refine ⟨by decide, by with_unfolding_all decide, ?_,
    by with_unfolding_all decide⟩
  intro e
  cases e <;> with_unfolding_all decide

/-- Claim C3 (amended): when the match counter is non-zero every score
is divided by the total match count, the dominant emotion attains the
maximal normalised score with confidence clamped to at most 1.0, and on
an exact tie the LAST-encountered emotion of the fixed order wins,
because the reduce keeps the accumulator only on a strict win. -/
theorem analyzeSentiment_normalized_dominant (m : SentimentModel)
    (text : String) (h : 0 < totalMatches m (jsToLower text)) :
    NormalizedDominant m text := by
  unfold NormalizedDominant
  refine ⟨?_, rfl, rfl, (dominant_spec _).1, ?_⟩
  · intro e
    unfold normScores
    rw [if_pos h]
  · intro e heq
    by_contra hgt
    push_neg at hgt
    exact absurd heq (ne_of_lt ((dominant_spec _).2 e hgt))

/-- Witness for the amended C3 at the text "happy". -/
theorem analyzeSentiment_normalized_dominant_witness :
    0 < totalMatches defaultModel (jsToLower "happy") ∧
    NormalizedDominant defaultModel "happy" :=
  ⟨by decide, analyzeSentiment_normalized_dominant defaultModel "happy" (by decide)⟩

/-- Modelled from the amended specification wording: the intensity
multiplier equals the maximum of 1.0 and the multipliers of the
intensity-modifier words that appear as substrings of the text. -/
def specIntensityMultiplier (m : SentimentModel) (t : String) : ℚ :=
  ((m.intensityModifiers.filter (fun mo => includes t mo.word)).map
    (fun mo => mo.multiplier)).foldl qmax 1

/-- Claim C4 counterexample: in the text "slightly" exactly one
modifier word appears and its multiplier is 0.6, yet the multiplier the
scorer uses is 1.0, so a lone multiplier below 1.0 is not used. -/
theorem intensity_counterexample :
    ((defaultModel.intensityModifiers.filter
        (fun mo => includes (jsToLower "slightly") mo.word)).map
      (fun mo => mo.multiplier)) = [3/5] ∧
    intensityOf defaultModel (jsToLower "slightly") = 1 ∧
    (1 : ℚ) ≠ 3/5 := by
  refine ⟨by with_unfolding_all decide, by with_unfolding_all decide, by norm_num⟩

/-- Claim C4 (amended): the intensity multiplier equals the maximum of
1.0 and the multipliers of all appearing modifier words — so it is 1.0
when no modifier appears, multipliers never stack, and a multiplier
below 1.0 never lowers the result below 1.0. -/
theorem intensityOf_spec (m : SentimentModel) (t : String) :
    intensityOf m t = specIntensityMultiplier m t ∧ 1 ≤ intensityOf m t := by
  have he : intensityOf m t = specIntensityMultiplier m t := by
    unfold intensityOf specIntensityMultiplier
    exact foldl_ite_qmax _ _ 1
  exact ⟨he, he ▸ le_foldl_qmax _ 1⟩

/-- Claim C5: whenever the Intent Classifier returns a category other
than "unknown", the result is the payload of some stored rule whose
confidence (matched over total patterns) reaches that rule's own
required-confidence threshold. -/
theorem detectIntent_threshold (intents : List Intent) (text : String)
    (h : (detectIntent intents text).category ≠ "unknown") :
    ∃ r ∈ intents,
      detectIntent intents text = rulePayload (jsToLower text) r ∧
      r.requiredConfidence ≤ (detectIntent intents text).confidence := by
  have hd : detectIntent intents text
      = intents.foldl (stepIntent (jsToLower text)) unknownIntent := rfl
  rcases foldl_cases (jsToLower text) intents unknownIntent
    with heq | ⟨r, hr, hq, heq⟩
  · exfalso
    apply h
    rw [hd, heq]
    rfl
  · refine ⟨r, hr, ?_, ?_⟩
    · rw [hd, heq]
    · rw [hd, heq]
      exact hq.2

/-- Witness for C5 at a text on which the question rule qualifies. -/
theorem detectIntent_threshold_witness :
    (detectIntent defaultIntents "what how when where why who").category
      ≠ "unknown" ∧
    ∃ r ∈ defaultIntents,
      detectIntent defaultIntents "what how when where why who"
        = rulePayload (jsToLower "what how when where why who") r ∧
      r.requiredConfidence
        ≤ (detectIntent defaultIntents "what how when where why who").confidence :=
  ⟨by with_unfolding_all decide,
   detectIntent_threshold defaultIntents "what how when where why who"
     (by with_unfolding_all decide)⟩

/-- Claim C6: when two rules both clear their own thresholds with equal
confidence, and no rule of the set beats that confidence (with no
earlier rule even reaching it), the classifier returns the payload of
the earlier of the two rules, because replacement of the running best
uses strict greater-than. -/
theorem detectIntent_tie_break (text : String) (l1 l2 l3 : List Intent)
    (r1 r2 : Intent)
    (hq1 : QualifiesRule (jsToLower text) r1)
    (_hq2 : QualifiesRule (jsToLower text) r2)
    (heq : ruleConfidence (jsToLower text) r1 = ruleConfidence (jsToLower text) r2)
    (hmax : ∀ r ∈ l1 ++ r1 :: l2 ++ r2 :: l3, QualifiesRule (jsToLower text) r →
      ruleConfidence (jsToLower text) r ≤ ruleConfidence (jsToLower text) r1)
    (hfirst : ∀ r ∈ l1, QualifiesRule (jsToLower text) r →
      ruleConfidence (jsToLower text) r < ruleConfidence (jsToLower text) r1) :
    detectIntent (l1 ++ r1 :: l2 ++ r2 :: l3) text
      = rulePayload (jsToLower text) r1 := by
  have hd : detectIntent (l1 ++ r1 :: l2 ++ r2 :: l3) text
      = (l1 ++ r1 :: l2 ++ r2 :: l3).foldl (stepIntent (jsToLower text))
          unknownIntent := rfl
  have hb0 : (l1.foldl (stepIntent (jsToLower text)) unknownIntent).confidence
      < ruleConfidence (jsToLower text) r1 := by
    apply foldl_bound
    · exact conf_pos _ _ hq1
    · exact hfirst
  have hstep : stepIntent (jsToLower text)
      (l1.foldl (stepIntent (jsToLower text)) unknownIntent) r1
      = rulePayload (jsToLower text) r1 := by
    rw [stepIntent_eq]
    exact if_pos ⟨hq1, hb0⟩
  have hl2 : (l2.foldl (stepIntent (jsToLower text))
      (rulePayload (jsToLower text) r1)) = rulePayload (jsToLower text) r1 := by
    apply foldl_keep
    intro r hr hq
    exact hmax r (by simp only [List.mem_append, List.mem_cons]; tauto) hq
  have e2 : (l1 ++ r1 :: l2).foldl (stepIntent (jsToLower text)) unknownIntent
      = rulePayload (jsToLower text) r1 := by
    rw [List.foldl_append, List.foldl_cons, hstep, hl2]
  have hfr2 : stepIntent (jsToLower text) (rulePayload (jsToLower text) r1) r2
      = rulePayload (jsToLower text) r1 := by
    rw [stepIntent_eq]
    apply if_neg
    rintro ⟨_, hlt⟩
    have h2 : ruleConfidence (jsToLower text) r1
        < ruleConfidence (jsToLower text) r2 := hlt
    rw [← heq] at h2
    exact lt_irrefl _ h2
  have hl3 : (l3.foldl (stepIntent (jsToLower text))
      (rulePayload (jsToLower text) r1)) = rulePayload (jsToLower text) r1 := by
    apply foldl_keep
    intro r hr hq
    exact hmax r (by simp only [List.mem_append, List.mem_cons]; tauto) hq
  rw [hd, List.foldl_append, e2, List.foldl_cons, hfr2, hl3]

/-- Witness for C6 at two single-pattern rules that tie at confidence
one. -/
theorem detectIntent_tie_break_witness :
    QualifiesRule (jsToLower "a")
      ⟨"catA", ["a"], [], [], 1/2⟩ ∧
    QualifiesRule (jsToLower "a")
      ⟨"catB", ["a"], [], [], 1/2⟩ ∧
    ruleConfidence (jsToLower "a") ⟨"catA", ["a"], [], [], 1/2⟩
      = ruleConfidence (jsToLower "a") ⟨"catB", ["a"], [], [], 1/2⟩ ∧
    detectIntent [⟨"catA", ["a"], [], [], 1/2⟩, ⟨"catB", ["a"], [], [], 1/2⟩] "a"
      = rulePayload (jsToLower "a") ⟨"catA", ["a"], [], [], 1/2⟩ :=
  ⟨by with_unfolding_all decide, by with_unfolding_all decide,
   by with_unfolding_all decide,
   detectIntent_tie_break "a" [] [] [] _ _
     (by with_unfolding_all decide) (by with_unfolding_all decide)
     (by with_unfolding_all decide)
     (by intro r hr; fin_cases hr <;> intro _ <;> with_unfolding_all decide)
     (by intro r hr; simp at hr)⟩

/-- Claim C7: the response stage always yields a textual reply — a
failed open-domain answer falls through silently to the general reply
path, and when both providers fail or are unconfigured the reply is the
deterministic fallback sentence keyed by intent category, emotion and
valence. -/
theorem generateResponse_fallback (um : String) (st : SentimentReading)
    (it : IntentResult) (p s : RemoteOutcome) :
    generateResponse um st it RemoteOutcome.fail p s = generalReply st it p s ∧
    generalReply st it RemoteOutcome.fail RemoteOutcome.fail
      = fallbackResponse it st := by
  constructor
  · cases hq : questionMode um it <;> simp only [generateResponse, hq]
  · rfl

/-- Claim C8: updating an existing conversation sets the mood to the
new emotion and the last intent to the new category, while the topic is
retained unchanged exactly when the new category is "unknown"; the
preferences are untouched. -/
theorem saveMessage_context_update (c : Conversation) (uid sid : String)
    (a : SaveArgs) (now : Nat) :
    (saveMessage (some c) uid sid a now).context.userMood
      = a.sentiment.emotion ∧
    (saveMessage (some c) uid sid a now).context.lastIntent
      = some a.intent.category ∧
    (saveMessage (some c) uid sid a now).context.conversationTopic
      = (if a.intent.category = "unknown" then c.context.conversationTopic
         else some a.intent.category) ∧
    (saveMessage (some c) uid sid a now).context.preferences
      = c.context.preferences := by
  refine ⟨rfl, rfl, ?_, rfl⟩
  by_cases h : a.intent.category = "unknown" <;> simp [saveMessage, h]

/-- Claim C9: on the text "hello" the greeting rule matches exactly one
of its six patterns, 1/6 is below the 0.7 threshold, no rule of the
default set qualifies, and the classifier returns the unknown result
with confidence 0 and no entities. -/
theorem detectIntent_hello_unknown :
    matchCount (jsToLower "hello")
      ["hello", "hi", "hey", "good morning", "good afternoon",
        "good evening"] = 1 ∧
    ((1 : ℚ)/6 < 7/10) ∧
    (∀ r ∈ defaultIntents, ¬ QualifiesRule (jsToLower "hello") r) ∧
    detectIntent defaultIntents "hello" = unknownIntent := by
  refine ⟨by decide, by norm_num, by with_unfolding_all decide,
    by with_unfolding_all decide⟩

/-- Claim C10: with no authenticated user the two read-only queries
return null, while the orchestrator action throws the authentication
error. -/
theorem unauthenticated_behaviour (store : List Conversation) (sid : String)
    (model : Option SentimentModel) (intents : List Intent)
    (conv : Option Conversation) (oa p s : RemoteOutcome)
    (text : String) (now : Nat) :
    getConversationHistory none store sid = none ∧
    getPerformanceMetrics none store = none ∧
    processVoiceInput none model intents conv oa p s text sid now
      = Except.error "User not authenticated" :=
  ⟨rfl, rfl, rfl⟩
